import Mathlib

/-
  Verification development for the constraint-generation phase of an
  inclusion-based (Andersen-style) points-to analysis
  (source: lib/ConstraintCollect.cpp).

  The program is shallowly embedded: LLVM types, constants, instructions,
  functions and modules become Lean inductive types; the node factory and
  the growing constraint list become explicit state threaded through the
  translation functions; assertion failures in the source become Option
  failure (none).  External collaborators that are not part of the given
  source file (the data layout, the struct analyzer, the node factory, the
  external-library model table) are modelled from the specification, each
  with a doc comment saying so.
-/

namespace AndersenPTA

/-! ## Types (model of llvm::Type, restricted to the shapes the pass inspects) -/

inductive Ty where
  | voidTy : Ty
  | intTy (bits : Nat) : Ty
  | floatTy : Ty
  | ptrTy (pointee : Ty) : Ty
  | arrayTy (n : Nat) (elem : Ty) : Ty
  | structTy (fields : List Ty) : Ty

/-- Model of Type::isPointerTy. -/
def Ty.isPointerTy : Ty → Bool
  | .ptrTy _ => true
  | _ => false

/-- Model of Type::isStructTy. -/
def Ty.isStructTy : Ty → Bool
  | .structTy _ => true
  | _ => false

/-- Model of Type::isAggregateType (a struct or array type). -/
def Ty.isAggregate : Ty → Bool
  | .arrayTy _ _ => true
  | .structTy _ => true
  | _ => false

/-- Model of Type::isSingleValueType: a value of first-class register type
(integer, float, pointer), i.e. neither void nor an aggregate. -/
def Ty.isSingleValueType : Ty → Bool
  | .intTy _ => true
  | .floatTy => true
  | .ptrTy _ => true
  | _ => false

mutual
/-- Modelled from the spec: the external layout provider query
"allocation size of a type" (DataLayout::getTypeAllocSize), instantiated
with a packed layout: ints take their byte width, pointers 8 bytes, arrays
and structs the sum of their parts. -/
def allocSize : Ty → Nat
  | .voidTy => 1
  | .intTy bits => max 1 (bits / 8)
  | .floatTy => 4
  | .ptrTy _ => 8
  | .arrayTy n t => n * allocSize t
  | .structTy fs => allocSizeList fs
def allocSizeList : List Ty → Nat
  | [] => 0
  | t :: ts => allocSize t + allocSizeList ts
end

/-- Modelled from the spec: the external layout provider query
StructLayout::getElementOffset — byte offset of field idx under the packed
layout. -/
def elemOffset (fs : List Ty) (idx : Nat) : Nat :=
  allocSizeList (fs.take idx)

/-- Modelled from the spec: the external layout provider query
StructLayout::getElementContainingOffset — the index of the field whose
byte range contains the given offset (clamped to the last field). -/
def elementContainingOffset : List Ty → Nat → Nat
  | [], _ => 0
  | [_], _ => 0
  | t :: ts, off => if off < allocSize t then 0 else 1 + elementContainingOffset ts (off - allocSize t)

/-! ## Struct analyzer (external collaborator, modelled from the spec) -/

mutual
/-- Modelled from the spec: the external struct analyzer query
StructInfo::getExpandedSize — the flattened field count of a type; arrays
collapse to their element type, scalars count as one field. -/
def expandedSize : Ty → Nat
  | .arrayTy _ t => expandedSize t
  | .structTy fs => expandedSizeList fs
  | _ => 1
def expandedSizeList : List Ty → Nat
  | [] => 0
  | t :: ts => expandedSize t + expandedSizeList ts
end

/-- Modelled from the spec: StructInfo::isEmpty — a struct with no flattened
fields. -/
def structIsEmpty (fs : List Ty) : Bool :=
  expandedSizeList fs == 0

/-- Modelled from the spec: StructInfo::getOffset — the flattened field
index corresponding to source-level field idx: the sum of the flattened
sizes of the fields before it. -/
def stInfoGetOffset (fs : List Ty) (idx : Nat) : Nat :=
  expandedSizeList (fs.take idx)

/-- Model of the array-collapsing loops in the source
(while (arrayType = dyn_cast of ArrayType) type = element type). -/
def stripArray : Ty → Ty
  | .arrayTy _ t => stripArray t
  | t => t

theorem sizeOf_stripArray_le : (t : Ty) → sizeOf (stripArray t) ≤ sizeOf t
  | .voidTy => by simp [stripArray]
  | .intTy bits => by simp [stripArray]
  | .floatTy => by simp [stripArray]
  | .ptrTy p => by simp [stripArray]
  | .structTy fs => by simp [stripArray]
  | .arrayTy n e => by
    have ih := sizeOf_stripArray_le e
    rw [stripArray]
    simp only [Ty.arrayTy.sizeOf_spec]
    omega

theorem sizeOf_getD_lt_structTy (fs : List Ty) (idx : Nat) :
    sizeOf (fs.getD idx Ty.voidTy) < sizeOf (Ty.structTy fs) := by
  induction fs generalizing idx with
  | nil =>
    simp [List.getD, Ty.structTy.sizeOf_spec]
  | cons a l ih =>
    cases idx with
    | zero =>
      simp only [List.getD_cons_zero, Ty.structTy.sizeOf_spec, List.cons.sizeOf_spec]
      omega
    | succ n =>
      have h := ih n
      simp only [List.getD_cons_succ, Ty.structTy.sizeOf_spec, List.cons.sizeOf_spec] at h ⊢
      omega

/-! ## GEP offset resolver (getGEPInstFieldNum in the source) -/

/-- The while loop of getGEPInstFieldNum: given the current true element
type, the running byte offset and the accumulated flattened field number,
collapse array wrapping, reduce the offset modulo the allocation size,
descend into struct fields adding their flattened indices, and on a
nonzero remainder against a non-aggregate type report the union-style
diagnostic and stop with the best field number found so far.  The Bool
component records whether the diagnostic (errs() warning in the source)
was emitted. -/
def gepLoop (t : Ty) (offset : Nat) (ret : Nat) : Nat × Bool :=
  if offset = 0 then (ret, false)
  else
    match h : stripArray t with
    | .structTy fs =>
      let off1 := offset % allocSize (Ty.structTy fs)
      let idx := elementContainingOffset fs off1
      gepLoop (fs.getD idx Ty.voidTy) (off1 - elemOffset fs idx) (ret + stInfoGetOffset fs idx)
    | t1 => if offset % allocSize t1 ≠ 0 then (ret, true) else (ret, false)
termination_by sizeOf t
decreasing_by
  have h1 := sizeOf_getD_lt_structTy fs (elementContainingOffset fs (offset % allocSize (Ty.structTy fs)))
  have h2 := sizeOf_stripArray_le t
  rw [h] at h2
  omega

/-- Model of getGEPInstFieldNum.  The byte offset implied by the index
chain (the external helper getGEPOffset) and the true element type of the
underlying base pointer (GetUnderlyingObject plus getElementType) are
supplied as inputs, carried on the instruction.  The second component
models whether the "GEP into the middle of a field" diagnostic fired. -/
def getGEPInstFieldNum (trueElemTy : Ty) (offset : Nat) : Nat × Bool :=
  gepLoop trueElemTy offset 0

/-! ## Constraints (AndersConstraint) -/

inductive ConstraintKind where
  | addr_of : ConstraintKind
  | copy : ConstraintKind
  | load : ConstraintKind
  | store : ConstraintKind
deriving DecidableEq, Repr

/-- Model of AndersConstraint: an immutable record (kind, dest, src, offset);
constraints.emplace_back in the source becomes appending one of these to the
output list.  The offset is 0 unless supplied (only the GEP rule supplies
one). -/
structure AndersConstraint where
  kind : ConstraintKind
  dest : Nat
  src : Nat
  offset : Nat
deriving DecidableEq, Repr

/-! ## Node factory (external collaborator, modelled from the spec) -/

/-- Identity of a program entity that can own a node: a global variable, a
function, an instruction result, or a formal argument (function id, position). -/
inductive ValueKey where
  | globalK (g : Nat) : ValueKey
  | funcK (f : Nat) : ValueKey
  | instK (i : Nat) : ValueKey
  | argK (f : Nat) (i : Nat) : ValueKey
deriving DecidableEq, Repr

/-- Modelled from the spec: the external node allocator.  Nodes are
integer-identified slots in one flat table; nodeCount is the next free
index; the four reserved special nodes occupy indices 0 to 3.  The maps
record which entity owns which value/object/return/vararg node. -/
structure NodeFactory where
  nodeCount : Nat
  valueMap : List (ValueKey × Nat)
  objectMap : List (ValueKey × Nat)
  returnMap : List (Nat × Nat)
  varargMap : List (Nat × Nat)
deriving DecidableEq, Repr

/-- The four reserved special node indices (UniversalPtr, UniversalObj,
NullPtr, NullObject), modelled from the spec. -/
def universalPtrNode : Nat := 0

def universalObjNode : Nat := 1

def nullPtrNode : Nat := 2

def nullObjectNode : Nat := 3

/-- The factory before any allocation: only the four special nodes exist. -/
def initialFactory : NodeFactory :=
  ⟨4, [], [], [], []⟩

def lookupKey (k : ValueKey) : List (ValueKey × Nat) → Option Nat
  | [] => none
  | (k2, n) :: rest => if k2 = k then some n else lookupKey k rest

def lookupNat (k : Nat) : List (Nat × Nat) → Option Nat
  | [] => none
  | (k2, n) :: rest => if k2 = k then some n else lookupNat k rest

def lookupValue (nf : NodeFactory) (k : ValueKey) : Option Nat :=
  lookupKey k nf.valueMap

def lookupObject (nf : NodeFactory) (k : ValueKey) : Option Nat :=
  lookupKey k nf.objectMap

def lookupReturn (nf : NodeFactory) (fid : Nat) : Option Nat :=
  lookupNat fid nf.returnMap

def lookupVararg (nf : NodeFactory) (fid : Nat) : Option Nat :=
  lookupNat fid nf.varargMap

/-- Modelled from the spec: createValueNode — idempotent per program entity
(repeated calls for the same entity return the same node); a fresh entity
receives the next index of the flat table. -/
def createValueNode (nf : NodeFactory) (k : ValueKey) : NodeFactory × Nat :=
  match lookupValue nf k with
  | some n => (nf, n)
  | none =>
    ({ nf with nodeCount := nf.nodeCount + 1, valueMap := (k, nf.nodeCount) :: nf.valueMap },
     nf.nodeCount)

/-- Modelled from the spec: createObjectNode for a program entity. -/
def createObjectNodeFor (nf : NodeFactory) (k : ValueKey) : NodeFactory × Nat :=
  match lookupObject nf k with
  | some n => (nf, n)
  | none =>
    ({ nf with nodeCount := nf.nodeCount + 1, objectMap := (k, nf.nodeCount) :: nf.objectMap },
     nf.nodeCount)

/-- Modelled from the spec: the argument-less createObjectNode() overload
used for the trailing field slots of a struct object: it allocates the
next index of the flat table without registering an owner. -/
def createObjectNodeAnon (nf : NodeFactory) : NodeFactory × Nat :=
  ({ nf with nodeCount := nf.nodeCount + 1 }, nf.nodeCount)

/-- The loop "for (i = 1; i < stSize; ++i) createObjectNode()" — k
anonymous object-node allocations. -/
def createObjectNodeAnonRange : NodeFactory → Nat → NodeFactory
  | nf, 0 => nf
  | nf, k + 1 => createObjectNodeAnonRange (createObjectNodeAnon nf).1 k

/-- Modelled from the spec: createReturnNode for a function. -/
def createReturnNode (nf : NodeFactory) (fid : Nat) : NodeFactory :=
  match lookupReturn nf fid with
  | some _ => nf
  | none =>
    { nf with nodeCount := nf.nodeCount + 1, returnMap := (fid, nf.nodeCount) :: nf.returnMap }

/-- Modelled from the spec: createVarargNode for a function. -/
def createVarargNode (nf : NodeFactory) (fid : Nat) : NodeFactory :=
  match lookupVararg nf fid with
  | some _ => nf
  | none =>
    { nf with nodeCount := nf.nodeCount + 1, varargMap := (fid, nf.nodeCount) :: nf.varargMap }

/-- Modelled from the spec: getOffsetObjectNode — an aggregate occupies
consecutive object-node indices with field 0 at the base, so the node at
offset k from a base object node is base + k. -/
def getOffsetObjectNode (objNode : Nat) (offset : Nat) : Nat :=
  objNode + offset

/-! ## Constants (initializers of globals) -/

/-- Model of llvm::Constant restricted to the shapes the initializer
recursion dispatches on: a reference to a global (a constant pointer), a
null value of some type (covering ConstantPointerNull, zero integers and
ConstantAggregateZero), an integer literal, an undefined value, an
array/sequential literal, and a struct literal (its source-level field
types and its operands). -/
inductive Const where
  | globalRef (g : Nat) (ty : Ty) : Const
  | nullConst (ty : Ty) : Const
  | intC (bits : Nat) (v : Int) : Const
  | undefC (ty : Ty) : Const
  | arrC (elemTy : Ty) (n : Nat) (elems : List Const) : Const
  | structC (fieldTys : List Ty) (elems : List Const) : Const

/-- Model of Constant::getType. -/
def constTy : Const → Ty
  | .globalRef _ t => t
  | .nullConst t => t
  | .intC bits _ => .intTy bits
  | .undefC t => t
  | .arrC t n _ => .arrayTy n t
  | .structC fts _ => .structTy fts

/-- Model of Constant::isNullValue (LLVM keeps all-zero aggregates in the
canonical ConstantAggregateZero form, covered by nullConst). -/
def isNullValue : Const → Bool
  | .nullConst _ => true
  | .intC _ v => v == 0
  | _ => false

/-- Model of isa of UndefValue. -/
def isUndef : Const → Bool
  | .undefC _ => true
  | _ => false

/-- Modelled from the spec: NodeFactory::getObjectNodeForConstant — the
object node a constant pointer resolves to: the object node of the
referenced global, or the Null Object for a null/undefined constant
pointer. -/
def getObjectNodeForConstant (nf : NodeFactory) : Const → Option Nat
  | .globalRef g _ => lookupObject nf (.globalK g)
  | .nullConst _ => some nullObjectNode
  | .undefC _ => some nullObjectNode
  | _ => none

/-! ## Operands, instructions, functions, modules -/

/-- The identity part of an operand: either a node-owning entity or a
non-global constant (null pointer or integer literal). -/
inductive OpKey where
  | valK (k : ValueKey) : OpKey
  | nullK : OpKey
  | intK (v : Int) : OpKey
deriving DecidableEq, Repr

/-- An instruction operand: its identity and its type. -/
structure Operand where
  key : OpKey
  ty : Ty

/-- Modelled from the spec: NodeFactory::getValueNodeFor — a constant null
pointer resolves to the Null Pointer node; a non-pointer constant owns no
node; every other operand is looked up in the value-node map, which must
succeed once the allocation invariants hold (fatal otherwise, modelled by
none). -/
def getValueNodeFor (nf : NodeFactory) (o : Operand) : Option Nat :=
  match o.key with
  | .valK k => lookupValue nf k
  | .nullK => if o.ty.isPointerTy then some nullPtrNode else none
  | .intK _ => none

/-- Model of llvm::Instruction restricted to the opcodes the translator
dispatches on.  Pointer-typed instruction results are identified by an id
(the instK key).  For a GEP, the byte offset implied by the constant index
chain (external helper getGEPOffset) and the true element type of the
underlying base pointer are carried on the instruction. -/
inductive Inst where
  | allocaI (id : Nat) (allocatedTy : Ty) : Inst
  | callI (id : Nat) (retTy : Ty) (callee : Option Nat) (args : List Operand) : Inst
  | retI (v : Option Operand) : Inst
  | loadI (id : Nat) (retTy : Ty) (addr : Operand) : Inst
  | storeI (v : Operand) (addr : Operand) : Inst
  | gepI (id : Nat) (retTy : Ty) (src : Operand) (baseTy : Ty) (byteOff : Nat) : Inst
  | phiI (id : Nat) (retTy : Ty) (incoming : List Operand) : Inst
  | bitcastI (id : Nat) (retTy : Ty) (src : Operand) : Inst
  | intToPtrI (id : Nat) (retTy : Ty) : Inst
  | selectI (id : Nat) (retTy : Ty) (tval : Operand) (fval : Operand) : Inst
  | vaargI (id : Nat) (retTy : Ty) : Inst
  | unsupportedI (id : Nat) (retTy : Ty) : Inst
  | otherI (id : Nat) (retTy : Ty) : Inst

/-- Model of Instruction::getType: the type of the instruction result.  A
store or return instruction has void type; an alloca produces a pointer to
the allocated type. -/
def Inst.instTy : Inst → Ty
  | .allocaI _ t => .ptrTy t
  | .callI _ r _ _ => r
  | .retI _ => .voidTy
  | .loadI _ r _ => r
  | .storeI _ _ => .voidTy
  | .gepI _ r _ _ _ => r
  | .phiI _ r _ => r
  | .bitcastI _ r _ => r
  | .intToPtrI _ r => r
  | .selectI _ r _ _ => r
  | .vaargI _ r => r
  | .unsupportedI _ r => r
  | .otherI _ r => r

/-- The id under which a result-producing instruction is registered. -/
def Inst.instKey : Inst → Option Nat
  | .allocaI id _ => some id
  | .callI id _ _ _ => some id
  | .retI _ => none
  | .loadI id _ _ => some id
  | .storeI _ _ => none
  | .gepI id _ _ _ _ => some id
  | .phiI id _ _ => some id
  | .bitcastI id _ _ => some id
  | .intToPtrI id _ => some id
  | .selectI id _ _ _ => some id
  | .vaargI id _ => some id
  | .unsupportedI id _ => some id
  | .otherI id _ => some id

/-- Model of llvm::Function: its id, name, linkage kind flags, signature,
whether its address is taken, and its body (empty for declarations). -/
structure Func where
  fid : Nat
  name : String
  isDecl : Bool
  isIntrinsic : Bool
  retTy : Ty
  isVarArg : Bool
  argTys : List Ty
  addressTaken : Bool
  body : List Inst

/-- Model of llvm::GlobalVariable: its id, its element type (the pointee
type of the global), and its initializer when it has a definitive one. -/
structure GlobalVar where
  gid : Nat
  ty : Ty
  init : Option Const

/-- Model of llvm::Module: ordered globals and functions. -/
structure Module where
  globals : List GlobalVar
  funcs : List Func

/-- Model of ImmutableCallSite: the call instruction id, the call result
type, the called function id (none for an indirect call), and the actual
arguments. -/
structure CallSite where
  instId : Nat
  retTy : Ty
  callee : Option Nat
  args : List Operand

/-- Modelled from the spec: the table of modeled external routines
(addConstraintForExternalLibrary), an external collaborator out of scope:
given the call site and the current factory it either handles the call
(some factory and emitted constraints) or declines (none). -/
def ExtLib : Type :=
  CallSite → NodeFactory → Option (NodeFactory × List AndersConstraint)

/-- The trivial external-library model that recognizes nothing. -/
def extLibNone : ExtLib :=
  fun _ _ => none

/-! ## Target library info (tli) and isMallocCall -/

/-- Model of the LibFunc enumerators the source consults. -/
inductive LibFunc where
  | mallocFn | vallocFn | callocFn | reallocFn | reallocfFn
  | znwjFn | znwjNothrowFn | znwmFn | znwmNothrowFn
  | znajFn | znajNothrowFn | znamFn | znamNothrowFn
  | strdupFn | strndupFn | memalignFn | posixMemalignFn
  | otherLibFn
deriving DecidableEq, Repr

/-- Model of TargetLibraryInfo: a table mapping recognized function names
to library-function enumerators (getLibFunc succeeds on its entries). -/
def Tli : Type :=
  List (String × LibFunc)

def getLibFunc (t : Tli) (n : String) : Option LibFunc :=
  match t with
  | [] => none
  | (n2, f) :: rest => if n2 = n then some f else getLibFunc rest n

/-- The AllocationFns array of the source. -/
def allocationFns : List LibFunc :=
  [.mallocFn, .vallocFn, .callocFn, .reallocFn, .reallocfFn,
   .znwjFn, .znwjNothrowFn, .znwmFn, .znwmNothrowFn,
   .znajFn, .znajNothrowFn, .znamFn, .znamNothrowFn,
   .strdupFn, .strndupFn, .memalignFn, .posixMemalignFn]

/-- Model of the called function of a call site: resolve the callee id in
the module (getCalledFunction returns null exactly for indirect calls). -/
def resolveCallee (m : Module) (callee : Option Nat) : Option Func :=
  callee.bind (fun fid => m.funcs.find? (fun f => f.fid == fid))

/-- Model of isMallocCall: false unless the callee is a declaration whose
name the target-library-info provider resolves to one of the allocation
routines; in particular false whenever tli is null (none). -/
def isMallocCall (callee : Option Func) (tli : Option Tli) : Bool :=
  match callee with
  | none => false
  | some f =>
    if !f.isDecl then false
    else
      match tli with
      | none => false
      | some t =>
        match getLibFunc t f.name with
        | none => false
        | some lf => allocationFns.contains lf

/-! ## Global and initializer constraints -/

mutual
/-- Embedding of Andersen::addGlobalInitializerConstraints: given the
already-allocated object node and a constant initializer, emit ADDR_OF for
a constant pointer, a single COPY from the Null Object for a null value,
nothing for an undefined value, recurse element-wise at the same node for
an array literal, and recurse field-wise for a struct literal where
operand i is directed at getOffsetObjectNode(objNode, i) — the raw operand
position i (the StructInfo fetched by the source at this point is unused).
Any other shape is llvm_unreachable, modelled by none. -/
def addGlobalInitializerConstraints (nf : NodeFactory) (objNode : Nat) (c : Const) :
    Option (List AndersConstraint) :=
  if (constTy c).isSingleValueType then
    if (constTy c).isPointerTy then
      match getObjectNodeForConstant nf c with
      | none => none
      | some rhs => some [⟨.addr_of, objNode, rhs, 0⟩]
    else some []
  else if isNullValue c then
    some [⟨.copy, objNode, nullObjectNode, 0⟩]
  else if isUndef c then
    some []
  else
    match c with
    | .arrC _ _ elems => initArrayElems nf objNode elems
    | .structC _ elems => initStructFields nf objNode 0 elems
    | _ => none

/-- The array branch: include constraints for each element, all directed
at the same object node. -/
def initArrayElems (nf : NodeFactory) (objNode : Nat) : List Const → Option (List AndersConstraint)
  | [] => some []
  | c :: rest => do
    let hd ← addGlobalInitializerConstraints nf objNode c
    let tl ← initArrayElems nf objNode rest
    some (hd ++ tl)

/-- The struct branch: sequentially initialize operand i at
getOffsetObjectNode(objNode, i). -/
def initStructFields (nf : NodeFactory) (objNode : Nat) (i : Nat) :
    List Const → Option (List AndersConstraint)
  | [] => some []
  | c :: rest => do
    let hd ← addGlobalInitializerConstraints nf (getOffsetObjectNode objNode i) c
    let tl ← initStructFields nf objNode (i + 1) rest
    some (hd ++ tl)
end

/-- Embedding of Andersen::processStruct: an empty struct gets only a
value node pointing at the Null Object; a non-empty struct gets one value
node, one owned object node plus expandedSize - 1 anonymous object nodes,
and a single ADDR_OF from the value node to the first object node. -/
def processStruct (nf : NodeFactory) (k : ValueKey) (fs : List Ty) :
    NodeFactory × List AndersConstraint :=
  if structIsEmpty fs then
    let (nf1, ptr) := createValueNode nf k
    (nf1, [⟨.addr_of, ptr, nullObjectNode, 0⟩])
  else
    let stSize := expandedSizeList fs
    let (nf1, ptr) := createValueNode nf k
    let (nf2, obj) := createObjectNodeFor nf1 k
    let nf3 := createObjectNodeAnonRange nf2 (stSize - 1)
    (nf3, [⟨.addr_of, ptr, obj, 0⟩])

/-- The per-global part of the first loop of collectConstraintsForGlobals:
strip array wrapping from the element type; a struct global goes through
processStruct, any other global gets one value node, one object node and
an ADDR_OF. -/
def processGlobalAlloc (nf : NodeFactory) (g : GlobalVar) : NodeFactory × List AndersConstraint :=
  match stripArray g.ty with
  | .structTy fs => processStruct nf (.globalK g.gid) fs
  | _ =>
    let (nf1, gVal) := createValueNode nf (.globalK g.gid)
    let (nf2, gObj) := createObjectNodeFor nf1 (.globalK g.gid)
    (nf2, [⟨.addr_of, gVal, gObj, 0⟩])

/-- The first loop of collectConstraintsForGlobals, over all globals. -/
def globalsAllocPass (nf : NodeFactory) : List GlobalVar → NodeFactory × List AndersConstraint
  | [] => (nf, [])
  | g :: gs =>
    let (nf1, cs1) := processGlobalAlloc nf g
    let (nf2, cs2) := globalsAllocPass nf1 gs
    (nf2, cs1 ++ cs2)

/-- The second loop of collectConstraintsForGlobals: every address-taken
function gets a value node, an object node and an ADDR_OF. -/
def funcsAllocPass (nf : NodeFactory) : List Func → NodeFactory × List AndersConstraint
  | [] => (nf, [])
  | f :: fs =>
    if f.addressTaken then
      let (nf1, fVal) := createValueNode nf (.funcK f.fid)
      let (nf2, fObj) := createObjectNodeFor nf1 (.funcK f.fid)
      let (nf3, rest) := funcsAllocPass nf2 fs
      (nf3, ⟨.addr_of, fVal, fObj, 0⟩ :: rest)
    else funcsAllocPass nf fs

/-- The third loop of collectConstraintsForGlobals: for every global with
an object node, constraints from its definitive initializer, or a
conservative COPY from the Universal Object when it has none. -/
def globalsInitPass (nf : NodeFactory) : List GlobalVar → Option (List AndersConstraint)
  | [] => some []
  | g :: gs =>
    match lookupObject nf (.globalK g.gid) with
    | none => globalsInitPass nf gs
    | some gObj =>
      match g.init with
      | some c => do
        let hd ← addGlobalInitializerConstraints nf gObj c
        let tl ← globalsInitPass nf gs
        some (hd ++ tl)
      | none => do
        let tl ← globalsInitPass nf gs
        some (⟨.copy, gObj, universalObjNode, 0⟩ :: tl)

/-- Embedding of Andersen::collectConstraintsForGlobals: the three loops
in program order. -/
def collectConstraintsForGlobals (nf : NodeFactory) (m : Module) :
    Option (NodeFactory × List AndersConstraint) :=
  let r1 := globalsAllocPass nf m.globals
  let r2 := funcsAllocPass r1.1 m.funcs
  (globalsInitPass r2.1 m.globals).map (fun cs3 => (r2.1, r1.2 ++ r2.2 ++ cs3))

/-! ## Argument binding (addArgumentConstraintForCall) -/

/-- The lockstep walk over formal/actual pairs: a pointer-typed formal is
COPY-ed from the actual when the actual is also pointer-typed, and from
the Universal Pointer otherwise; non-pointer formals emit nothing.  The
leftover actuals beyond the fixed formals are returned for the varargs
loop. -/
def bindFixedArgs (nf : NodeFactory) (fid : Nat) (i : Nat) :
    List Ty → List Operand → Option (List AndersConstraint × List Operand)
  | [], actuals => some ([], actuals)
  | _ :: _, [] => some ([], [])
  | fTy :: fRest, a :: aRest => do
    let hd ←
      if fTy.isPointerTy then do
        let fIndex ← lookupValue nf (.argK fid i)
        if a.ty.isPointerTy then do
          let aIndex ← getValueNodeFor nf a
          pure [(⟨.copy, fIndex, aIndex, 0⟩ : AndersConstraint)]
        else
          pure [(⟨.copy, fIndex, universalPtrNode, 0⟩ : AndersConstraint)]
      else pure []
    let (tl, leftover) ← bindFixedArgs nf fid (i + 1) fRest aRest
    some (hd ++ tl, leftover)

/-- The varargs loop: every pointer-typed actual beyond the fixed formals
is COPY-ed into the vararg node of the callee. -/
def bindVarargs (nf : NodeFactory) (fid : Nat) : List Operand → Option (List AndersConstraint)
  | [] => some []
  | a :: rest =>
    if a.ty.isPointerTy then do
      let aIndex ← getValueNodeFor nf a
      let vaIndex ← lookupVararg nf fid
      let tl ← bindVarargs nf fid rest
      some (⟨.copy, vaIndex, aIndex, 0⟩ :: tl)
    else bindVarargs nf fid rest

/-- Embedding of Andersen::addArgumentConstraintForCall. -/
def addArgumentConstraintForCall (nf : NodeFactory) (cs : CallSite) (f : Func) :
    Option (List AndersConstraint) := do
  let (fixedCs, leftover) ← bindFixedArgs nf f.fid 0 f.argTys cs.args
  if f.isVarArg then do
    let varCs ← bindVarargs nf f.fid leftover
    pure (fixedCs ++ varCs)
  else pure fixedCs

/-! ## Call resolution (addConstraintForCall) -/

/-- The argument loop of the unresolved-external fallback: every actual —
with no pointer-type check — has its value node looked up and COPY-ed
from the Universal Pointer. -/
def unresolvedArgLoop (nf : NodeFactory) : List Operand → Option (List AndersConstraint)
  | [] => some []
  | a :: rest => do
    let aIndex ← getValueNodeFor nf a
    let tl ← unresolvedArgLoop nf rest
    some (⟨.copy, aIndex, universalPtrNode, 0⟩ :: tl)

/-- The candidate loop of the indirect-call branch: walk every function of
the module, skip those without a value node (not address-taken) and the
non-variadic ones whose formal count differs from the actual count, and
bind arguments against each remaining candidate. -/
def indirectArgLoop (nf : NodeFactory) (cs : CallSite) : List Func → Option (List AndersConstraint)
  | [] => some []
  | f :: fs =>
    if (lookupValue nf (.funcK f.fid)).isNone then indirectArgLoop nf cs fs
    else if !f.isVarArg && f.argTys.length != cs.args.length then indirectArgLoop nf cs fs
    else do
      let out ← addArgumentConstraintForCall nf cs f
      let rest ← indirectArgLoop nf cs fs
      some (out ++ rest)

/-- Embedding of Andersen::addConstraintForCall.  A direct call to a
declaration/intrinsic first tries the external-library table; if
unmodeled, the fallback COPYs the pointer-typed result and every
actual-argument node from the Universal Pointer — and then, like every
direct call, falls through to the formal/actual argument binding.  A
direct call to a defined function COPYs the pointer-typed result from the
callee return node and binds arguments.  An indirect call COPYs the
pointer-typed result from the Universal Pointer and binds arguments
against every candidate of the module-wide loop. -/
def addConstraintForCall (m : Module) (extLib : ExtLib) (nf : NodeFactory) (cs : CallSite) :
    Option (NodeFactory × List AndersConstraint) :=
  match cs.callee with
  | some fid =>
    match m.funcs.find? (fun f => f.fid == fid) with
    | none => none
    | some f =>
      if f.isDecl || f.isIntrinsic then
        match extLib cs nf with
        | some res => some res
        | none => do
          let retCs ←
            if cs.retTy.isPointerTy then do
              let retIndex ← lookupValue nf (.instK cs.instId)
              pure [(⟨.copy, retIndex, universalPtrNode, 0⟩ : AndersConstraint)]
            else pure []
          let argCs ← unresolvedArgLoop nf cs.args
          let bindCs ← addArgumentConstraintForCall nf cs f
          some (nf, retCs ++ argCs ++ bindCs)
      else do
        let retCs ←
          if cs.retTy.isPointerTy then do
            let retIndex ← lookupValue nf (.instK cs.instId)
            let fRetIndex ← lookupReturn nf f.fid
            pure [(⟨.copy, retIndex, fRetIndex, 0⟩ : AndersConstraint)]
          else pure []
        let bindCs ← addArgumentConstraintForCall nf cs f
        some (nf, retCs ++ bindCs)
  | none => do
    let retCs ←
      if cs.retTy.isPointerTy then do
        let retIndex ← lookupValue nf (.instK cs.instId)
        pure [(⟨.copy, retIndex, universalPtrNode, 0⟩ : AndersConstraint)]
      else pure []
    let argCs ← indirectArgLoop nf cs m.funcs
    some (nf, retCs ++ argCs)

/-! ## Instruction translation (collectConstraintsForInstruction) -/

/-- The per-incoming-value loop of the phi rule. -/
def phiSources (nf : NodeFactory) (dst : Nat) : List Operand → Option (List AndersConstraint)
  | [] => some []
  | o :: rest => do
    let s ← getValueNodeFor nf o
    let tl ← phiSources nf dst rest
    some (⟨.copy, dst, s, 0⟩ :: tl)

/-- Embedding of Andersen::collectConstraintsForInstruction: the opcode
switch.  Assertion failures (required lookups that fail, unsupported
opcodes, a pointer-typed result in the default case) are modelled by
none. -/
def collectConstraintsForInstruction (m : Module) (tli : Option Tli) (extLib : ExtLib)
    (f : Func) (nf : NodeFactory) (inst : Inst) :
    Option (NodeFactory × List AndersConstraint) :=
  match inst with
  | .allocaI id _ =>
    let (nf1, valNode) := createValueNode nf (.instK id)
    let (nf2, objNode) := createObjectNodeFor nf1 (.instK id)
    some (nf2, [⟨.addr_of, valNode, objNode, 0⟩])
  | .callI id rty callee args =>
    if isMallocCall (resolveCallee m callee) tli then do
      let ptrIndex ← lookupValue nf (.instK id)
      let (nf1, objIndex) := createObjectNodeFor nf (.instK id)
      some (nf1, [⟨.addr_of, ptrIndex, objIndex, 0⟩])
    else
      addConstraintForCall m extLib nf ⟨id, rty, callee, args⟩
  | .retI v =>
    match v with
    | some op =>
      if op.ty.isPointerTy then do
        let retIndex ← lookupReturn nf f.fid
        let valIndex ← getValueNodeFor nf op
        some (nf, [⟨.copy, retIndex, valIndex, 0⟩])
      else some (nf, [])
    | none => some (nf, [])
  | .loadI id rty addr =>
    if rty.isPointerTy then do
      let opIndex ← getValueNodeFor nf addr
      let valIndex ← lookupValue nf (.instK id)
      some (nf, [⟨.load, valIndex, opIndex, 0⟩])
    else some (nf, [])
  | .storeI v addr =>
    if (Inst.storeI v addr).instTy.isPointerTy then do
      let srcIndex ← getValueNodeFor nf v
      let dstIndex ← getValueNodeFor nf addr
      some (nf, [⟨.store, dstIndex, srcIndex, 0⟩])
    else some (nf, [])
  | .gepI id rty src baseTy byteOff =>
    if !rty.isPointerTy then none
    else do
      let srcIndex ← getValueNodeFor nf src
      let dstIndex ← lookupValue nf (.instK id)
      let fieldNum := (getGEPInstFieldNum baseTy byteOff).1
      some (nf, [⟨.store, dstIndex, srcIndex, fieldNum⟩])
  | .phiI id rty incoming =>
    if rty.isPointerTy then do
      let dstIndex ← lookupValue nf (.instK id)
      let cs ← phiSources nf dstIndex incoming
      some (nf, cs)
    else some (nf, [])
  | .bitcastI id rty src =>
    if rty.isPointerTy then do
      let srcIndex ← getValueNodeFor nf src
      let dstIndex ← lookupValue nf (.instK id)
      some (nf, [⟨.copy, dstIndex, srcIndex, 0⟩])
    else some (nf, [])
  | .intToPtrI id rty =>
    if !rty.isPointerTy then none
    else do
      let dstIndex ← lookupValue nf (.instK id)
      some (nf, [⟨.copy, dstIndex, universalPtrNode, 0⟩])
  | .selectI id rty tval fval =>
    if rty.isPointerTy then do
      let srcIndex1 ← getValueNodeFor nf tval
      let srcIndex2 ← getValueNodeFor nf fval
      let dstIndex ← lookupValue nf (.instK id)
      some (nf, [⟨.copy, dstIndex, srcIndex1, 0⟩, ⟨.copy, dstIndex, srcIndex2, 0⟩])
    else some (nf, [])
  | .vaargI id rty =>
    if rty.isPointerTy then do
      let dstIndex ← lookupValue nf (.instK id)
      let vaIndex ← lookupVararg nf f.fid
      some (nf, [⟨.copy, dstIndex, vaIndex, 0⟩])
    else some (nf, [])
  | .unsupportedI _ _ => none
  | .otherI _ rty =>
    if rty.isPointerTy then none else some (nf, [])

/-! ## The driver (collectConstraints) -/

/-- The three seed constraints of collectConstraints. -/
def seedConstraints : List AndersConstraint :=
  [⟨.addr_of, universalPtrNode, universalObjNode, 0⟩,
   ⟨.store, universalObjNode, universalObjNode, 0⟩,
   ⟨.addr_of, nullPtrNode, nullObjectNode, 0⟩]

/-- Per-function node pre-allocation: a return node when the return type
is a pointer, a vararg node when variadic, a value node per pointer-typed
formal. -/
def funcHeaderAlloc (nf : NodeFactory) (f : Func) : NodeFactory :=
  let nf1 := if f.retTy.isPointerTy then createReturnNode nf f.fid else nf
  let nf2 := if f.isVarArg then createVarargNode nf1 f.fid else nf1
  (f.argTys.enum.foldl
    (fun acc p => if p.2.isPointerTy then (createValueNode acc (.argK f.fid p.1)).1 else acc)
    nf2)

/-- Pass 1 over a function body: a value node for every pointer-typed
instruction result. -/
def funcBodyPass1 (nf : NodeFactory) (body : List Inst) : NodeFactory :=
  body.foldl
    (fun acc i =>
      if i.instTy.isPointerTy then
        match i.instKey with
        | some id => (createValueNode acc (.instK id)).1
        | none => acc
      else acc)
    nf

/-- Pass 2 over a function body: translate each instruction in order. -/
def funcBodyPass2 (m : Module) (tli : Option Tli) (extLib : ExtLib) (f : Func)
    (nf : NodeFactory) : List Inst → Option (NodeFactory × List AndersConstraint)
  | [] => some (nf, [])
  | i :: rest => do
    let (nf1, cs1) ← collectConstraintsForInstruction m tli extLib f nf i
    let (nf2, cs2) ← funcBodyPass2 m tli extLib f nf1 rest
    some (nf2, cs1 ++ cs2)

/-- The per-function part of collectConstraints: declarations and
intrinsics are skipped; otherwise header allocation, pass 1, pass 2. -/
def processFunction (m : Module) (tli : Option Tli) (extLib : ExtLib)
    (nf : NodeFactory) (f : Func) : Option (NodeFactory × List AndersConstraint) :=
  if f.isDecl || f.isIntrinsic then some (nf, [])
  else
    let nf1 := funcHeaderAlloc nf f
    let nf2 := funcBodyPass1 nf1 f.body
    funcBodyPass2 m tli extLib f nf2 f.body

/-- The function loop of collectConstraints. -/
def functionsPass (m : Module) (tli : Option Tli) (extLib : ExtLib)
    (nf : NodeFactory) : List Func → Option (NodeFactory × List AndersConstraint)
  | [] => some (nf, [])
  | f :: fs => do
    let (nf1, cs1) ← processFunction m tli extLib nf f
    let (nf2, cs2) ← functionsPass m tli extLib nf1 fs
    some (nf2, cs1 ++ cs2)

/-- Embedding of Andersen::collectConstraints: seed the universal/null
constraints, run the (modelled) struct analyzer, process globals, then
process every function body. -/
def collectConstraints (tli : Option Tli) (extLib : ExtLib) (m : Module) :
    Option (NodeFactory × List AndersConstraint) :=
  (collectConstraintsForGlobals initialFactory m).bind (fun r1 =>
    (functionsPass m tli extLib r1.1 m.funcs).map (fun r2 =>
      (r2.1, seedConstraints ++ r1.2 ++ r2.2)))

/-! ## Derived stage views of the driver (used to state ordering claims) -/

/-- The factory and constraints after the first loop of the globals pass. -/
def globalAllocResult (m : Module) : NodeFactory × List AndersConstraint :=
  globalsAllocPass initialFactory m.globals

/-- The factory and constraints after the address-taken-function loop. -/
def funcAllocResult (m : Module) : NodeFactory × List AndersConstraint :=
  funcsAllocPass (globalAllocResult m).1 m.funcs

/-- The global-initializer constraints of a run: the output of the third
loop of collectConstraintsForGlobals (initializer-derived constraints and
the conservative COPY from the Universal Object for globals with no
definitive initializer). -/
def globalInitConstraintsOf (m : Module) : List AndersConstraint :=
  (globalsInitPass (funcAllocResult m).1 m.globals).getD []

/-- The constraints generated from function bodies in a run. -/
def bodyConstraintsOf (tli : Option Tli) (extLib : ExtLib) (m : Module) : List AndersConstraint :=
  ((functionsPass m tli extLib (funcAllocResult m).1 m.funcs).map (fun p => p.2)).getD []

/-- The full ordered constraint sequence of a run. -/
def outputConstraintsOf (tli : Option Tli) (extLib : ExtLib) (m : Module) : List AndersConstraint :=
  ((collectConstraints tli extLib m).map (fun p => p.2)).getD []

/-- Specification-side formulation for the indirect-call claim: bind
arguments, with no further filtering, against every function of the given
candidate list in order. -/
def boundCandidatesSpec (nf : NodeFactory) (cs : CallSite) : List Func → Option (List AndersConstraint)
  | [] => some []
  | f :: fs => do
    let out ← addArgumentConstraintForCall nf cs f
    let rest ← boundCandidatesSpec nf cs fs
    some (out ++ rest)

/-! ## Concrete fixtures -/

/-- The pointer-to-32-bit-int type, used throughout the fixtures. -/
def pT32 : Ty := .ptrTy (.intTy 32)

/-- An unmodeled external declaration: void ext(i32), no body. -/
def extDeclFn : Func := ⟨0, "ext", true, false, .voidTy, false, [.intTy 32], false, []⟩

/-- A module containing only the external declaration. -/
def mExt : Module := ⟨[], [extDeclFn]⟩

/-- A call site calling the external declaration with the single
non-pointer actual argument i32 5. -/
def csExt : CallSite := ⟨5, .voidTy, some 0, [⟨.intK 5, .intTy 32⟩]⟩

/-- A factory with an object node (index 40) for global 5, used by the
struct-literal initializer fixture. -/
def nfInit : NodeFactory := ⟨41, [], [(.globalK 5, 40)], [], []⟩

/-- The struct literal { { i32* null, i32* null }, i32* @g5 }: operand 0
is itself a struct with two flattened fields, so the flattened index of
field 1 is 2 while its raw operand position is 1. -/
def cNested : Const :=
  .structC [.structTy [pT32, pT32], pT32]
    [.structC [pT32, pT32] [.nullConst pT32, .nullConst pT32], .globalRef 5 pT32]

/-- An all-zero aggregate constant: a three-element array of
single-pointer structs, nested aggregates at two depths. -/
def cZeroAgg : Const := .nullConst (.arrayTy 3 (.structTy [pT32]))

/-- A function with one body instruction (an alloca) and no arguments. -/
def fAlloca : Func := ⟨0, "f", false, false, .voidTy, false, [], false, [.allocaI 0 (.intTy 32)]⟩

/-- A module with one defined global (with a definitive initializer) and
one function with a body: both a global-initializer constraint and a
function-body constraint are emitted. -/
def mOrder : Module :=
  ⟨[⟨0, .ptrTy (.intTy 32), some (.nullConst (.ptrTy (.intTy 32)))⟩], [fAlloca]⟩

/-- Address-taken candidate of arity 2 (non-variadic, non-pointer formals). -/
def fArity2 : Func := ⟨10, "a2", false, false, .voidTy, false, [.intTy 32, .intTy 32], true, []⟩

/-- Address-taken variadic candidate with no fixed formals. -/
def fVar : Func := ⟨11, "va", false, false, .voidTy, true, [], true, []⟩

/-- A function of arity 2 whose address is not taken. -/
def fNoAddr : Func := ⟨12, "na", false, false, .voidTy, false, [.intTy 32, .intTy 32], false, []⟩

/-- Address-taken non-variadic function of arity 3 (mismatched). -/
def fArity3 : Func :=
  ⟨13, "a3", false, false, .voidTy, false, [.intTy 32, .intTy 32, .intTy 32], true, []⟩

/-- The candidate list of the indirect-call fixture. -/
def fsInd : List Func := [fArity2, fVar, fNoAddr, fArity3]

/-- A factory in which exactly the address-taken functions of fsInd own
value nodes (as the globals pass would have left it). -/
def nfInd : NodeFactory :=
  ⟨7, [(.funcK 10, 4), (.funcK 11, 5), (.funcK 13, 6)], [], [], []⟩

/-- An indirect call site with two non-pointer actual arguments. -/
def csInd : CallSite := ⟨20, .voidTy, none, [⟨.intK 1, .intTy 32⟩, ⟨.intK 2, .intTy 32⟩]⟩

/-- A factory owning value nodes for the GEP source (instruction 0, node
8) and the GEP result (instruction 1, node 9). -/
def nfGep : NodeFactory := ⟨10, [(.instK 0, 8), (.instK 1, 9)], [], [], []⟩

/-- The pointer operand of the GEP fixtures: the result of instruction 0,
of type pointer-to-struct. -/
def srcGep : Operand := ⟨.valK (.instK 0), .ptrTy (.structTy [.intTy 32, .intTy 32])⟩

/-- A dummy enclosing function for instruction-level fixtures. -/
def dummyFunc : Func := ⟨99, "g", false, false, .voidTy, false, [], false, []⟩

/-- The empty module. -/
def emptyModule : Module := ⟨[], []⟩

/-- A global whose element type is a two-field struct wrapped in an
array: i.e. [2 x { i32*, i32 }], with no definitive initializer. -/
def gStruct : GlobalVar := ⟨7, .arrayTy 2 (.structTy [pT32, .intTy 32]), none⟩

/-! ## Helper lemmas -/

theorem expandedSize_of_not_aggregate (t : Ty) (h : t.isAggregate = false) :
    expandedSize t = 1 := by
  cases t with
  | arrayTy n e => simp [Ty.isAggregate] at h
  | structTy fs => simp [Ty.isAggregate] at h
  | voidTy => rfl
  | intTy bits => rfl
  | floatTy => rfl
  | ptrTy p => rfl

theorem stripArray_of_not_aggregate (t : Ty) (h : t.isAggregate = false) :
    stripArray t = t := by
  cases t with
  | arrayTy n e => simp [Ty.isAggregate] at h
  | structTy fs => rfl
  | voidTy => rfl
  | intTy bits => rfl
  | floatTy => rfl
  | ptrTy p => rfl

/-- The loop exits immediately on a zero offset. -/
theorem gepLoop_zero (t : Ty) (ret : Nat) : gepLoop t 0 ret = (ret, false) := by
  rw [gepLoop]
  simp

/-- On a non-aggregate type with a positive offset strictly below its
allocation size, the loop reports the union-style diagnostic and stops
with the accumulated field number. -/
theorem gepLoop_scalar_inside (t : Ty) (off ret : Nat) (h : t.isAggregate = false)
    (h1 : 0 < off) (h2 : off < allocSize t) :
    gepLoop t off ret = (ret, true) := by
  rw [gepLoop]
  rw [if_neg (by omega)]
  have hs := stripArray_of_not_aggregate t h
  cases t with
  | arrayTy n e => simp [Ty.isAggregate] at h
  | structTy fs => simp [Ty.isAggregate] at h
  | voidTy =>
    simp only [stripArray]
    rw [if_pos]
    rw [Nat.mod_eq_of_lt h2]
    omega
  | intTy bits =>
    simp only [stripArray]
    rw [if_pos]
    rw [Nat.mod_eq_of_lt h2]
    omega
  | floatTy =>
    simp only [stripArray]
    rw [if_pos]
    rw [Nat.mod_eq_of_lt h2]
    omega
  | ptrTy p =>
    simp only [stripArray]
    rw [if_pos]
    rw [Nat.mod_eq_of_lt h2]
    omega

/-- One iteration of the loop on a two-field struct whose first field is
non-aggregate, with an offset inside the second field: descend into field
1 (flattened index 1) with the remaining offset. -/
theorem gepLoop_two_field_step (f0 f1 : Ty) (off ret : Nat)
    (h0 : f0.isAggregate = false)
    (hpos : 0 < off) (hlo : allocSize f0 ≤ off)
    (hhi : off < allocSize f0 + allocSize f1) :
    gepLoop (.structTy [f0, f1]) off ret = gepLoop f1 (off - allocSize f0) (ret + 1) := by
  have hsz : allocSize (Ty.structTy [f0, f1]) = allocSize f0 + allocSize f1 := by
    show allocSize f0 + (allocSize f1 + 0) = allocSize f0 + allocSize f1
    omega
  have hmod : off % allocSize (Ty.structTy [f0, f1]) = off := by
    rw [hsz]
    exact Nat.mod_eq_of_lt hhi
  have hco : elementContainingOffset [f0, f1] off = 1 := by
    show (if off < allocSize f0 then 0 else 1 + elementContainingOffset [f1] (off - allocSize f0)) = 1
    rw [if_neg (by omega)]
    rfl
  have hfl : stInfoGetOffset [f0, f1] 1 = 1 := by
    show expandedSize f0 + expandedSizeList [] = 1
    rw [expandedSize_of_not_aggregate f0 h0]
    rfl
  have helem : elemOffset [f0, f1] 1 = allocSize f0 := by
    show allocSize f0 + allocSizeList [] = allocSize f0
    rfl
  rw [gepLoop, if_neg (by omega : ¬ off = 0)]
  show gepLoop
      ([f0, f1].getD (elementContainingOffset [f0, f1] (off % allocSize (Ty.structTy [f0, f1]))) Ty.voidTy)
      ((off % allocSize (Ty.structTy [f0, f1])) -
        elemOffset [f0, f1] (elementContainingOffset [f0, f1] (off % allocSize (Ty.structTy [f0, f1]))))
      (ret + stInfoGetOffset [f0, f1]
        (elementContainingOffset [f0, f1] (off % allocSize (Ty.structTy [f0, f1])))) =
    gepLoop f1 (off - allocSize f0) (ret + 1)
  rw [hmod, hco, hfl, helem]
  rfl

/-! ## Claim theorems -/

/-- C1: the claim (and the spec table) says a store of a pointer-typed
value emits STORE(address operand, stored value).  The code guards the
Store case with the result type of the store instruction itself, which is
void, so the translator emits no constraint for any store instruction —
regardless of the operands, the factory is returned unchanged with an
empty constraint list, and the claimed STORE is never produced. -/
theorem store_case_emits_nothing (m : Module) (tli : Option Tli) (extLib : ExtLib)
    (f : Func) (nf : NodeFactory) (v a : Operand) :
    collectConstraintsForInstruction m tli extLib f nf (.storeI v a) = some (nf, []) := rfl

/-- C2: evaluating the initializer recursion on the struct literal
{ { i32* null, i32* null }, i32* @g5 } against base object node 10 (with
the object node of g5 at index 40).  Field 0 has two flattened fields, so
the flattened index of field 1 is 2 and the claim directs operand 1 at
node 12 = getOffsetObjectNode 10 2; the code instead directs it at node
11 — the raw operand position — so the constraint the claim requires is
absent from the output. -/
theorem struct_literal_uses_raw_operand_position :
    addGlobalInitializerConstraints nfInit 10 cNested =
      some [⟨.addr_of, 10, 3, 0⟩, ⟨.addr_of, 11, 3, 0⟩, ⟨.addr_of, 11, 40, 0⟩] ∧
    stInfoGetOffset [.structTy [pT32, pT32], pT32] 1 = 2 ∧
    (⟨.addr_of, getOffsetObjectNode 10 (stInfoGetOffset [.structTy [pT32, pT32], pT32] 1), 40, 0⟩ :
        AndersConstraint) ∉
      [(⟨.addr_of, 10, 3, 0⟩ : AndersConstraint), ⟨.addr_of, 11, 3, 0⟩, ⟨.addr_of, 11, 40, 0⟩] :=
  ⟨rfl, rfl, by decide⟩

/-- C3: a direct call to the unmodeled external declaration ext with the
single non-pointer actual i32 5.  The claim says no constraint is emitted
for the non-pointer actual (and the call succeeds with only the Universal
Pointer COPYs); the code iterates over every actual without a pointer-type
check and requires a value node for each, and no value node exists for a
non-pointer constant, so the required lookup fails — the fallback aborts
instead of skipping the actual. -/
theorem unresolved_external_nonpointer_actual_fatal :
    addConstraintForCall mExt extLibNone initialFactory csExt = none := rfl

/-- C7: an all-zero aggregate constant (not of single-value type, a null
value) makes the initializer recursion emit exactly one constraint, a COPY
from the Null Object into the target object node, without recursing into
fields or elements — at any nesting depth, since the hypotheses hold for
any aggregate type shape. -/
theorem zero_aggregate_single_copy (nf : NodeFactory) (objNode : Nat) (c : Const)
    (hAgg : (constTy c).isSingleValueType = false) (hNull : isNullValue c = true) :
    addGlobalInitializerConstraints nf objNode c = some [⟨.copy, objNode, nullObjectNode, 0⟩] := by
  cases c with
  | nullConst t =>
    simp only [constTy] at hAgg
    rw [addGlobalInitializerConstraints] <;> simp [constTy, hAgg, isNullValue]
  | globalRef g t => simp [isNullValue] at hNull
  | intC bits v => simp [constTy, Ty.isSingleValueType] at hAgg
  | undefC t => simp [isNullValue] at hNull
  | arrC t n elems => simp [isNullValue] at hNull
  | structC fts elems => simp [isNullValue] at hNull

/-- Witness for C7: the doubly nested all-zero aggregate
[3 x { i32* }] zeroinitializer yields the single COPY from the Null
Object. -/
theorem zero_aggregate_single_copy_witness :
    (constTy cZeroAgg).isSingleValueType = false ∧ isNullValue cZeroAgg = true ∧
    addGlobalInitializerConstraints initialFactory 10 cZeroAgg =
      some [⟨.copy, 10, nullObjectNode, 0⟩] :=
  ⟨rfl, rfl, zero_aggregate_single_copy initialFactory 10 cZeroAgg rfl rfl⟩

theorem isMallocCall_no_tli (c : Option Func) : isMallocCall c none = false := by
  cases c with
  | none => rfl
  | some f =>
    rw [isMallocCall]
    cases f.isDecl <;> simp

/-- C10: with no target-library-info provider (tli = none), isMallocCall
returns false for every call site, so the Call case of the translator
never takes the heap-allocation branch (fresh object node plus ADDR_OF)
and instead hands every call — including calls to allocation routines
like malloc — to addConstraintForCall, the external-call path. -/
theorem no_tli_no_malloc_recognition (m : Module) (extLib : ExtLib) (f : Func)
    (nf : NodeFactory) (id : Nat) (rty : Ty) (callee : Option Nat) (args : List Operand) :
    isMallocCall (resolveCallee m callee) none = false ∧
    collectConstraintsForInstruction m none extLib f nf (.callI id rty callee args) =
      addConstraintForCall m extLib nf ⟨id, rty, callee, args⟩ := by
  refine ⟨isMallocCall_no_tli _, ?_⟩
  show (if isMallocCall (resolveCallee m callee) none = true then _ else
    addConstraintForCall m extLib nf ⟨id, rty, callee, args⟩) = _
  rw [isMallocCall_no_tli]
  simp

/-- C6: a pointer-arithmetic instruction whose constant-index byte offset
addresses field 1 of a two-field struct (byte offset = allocation size of
field 0, both fields non-aggregate): the offset resolver returns the
flattened field index 1 without a diagnostic, and the translator emits a
single STORE whose field-offset tag is that flattened index 1 — the
resolver output, not the raw byte offset. -/
theorem gep_field1_flattened_index (m : Module) (tli : Option Tli) (extLib : ExtLib)
    (f : Func) (nf : NodeFactory) (id : Nat) (pointee : Ty) (src : Operand)
    (f0 f1 : Ty) (d s : Nat)
    (h0 : f0.isAggregate = false) (h1 : f1.isAggregate = false)
    (hs0 : 0 < allocSize f0) (hs1 : 0 < allocSize f1)
    (hd : lookupValue nf (.instK id) = some d)
    (hsrc : getValueNodeFor nf src = some s) :
    getGEPInstFieldNum (.structTy [f0, f1]) (allocSize f0) = (1, false) ∧
    collectConstraintsForInstruction m tli extLib f nf
      (.gepI id (.ptrTy pointee) src (.structTy [f0, f1]) (allocSize f0)) =
      some (nf, [⟨.store, d, s, 1⟩]) := by
  have hres : getGEPInstFieldNum (.structTy [f0, f1]) (allocSize f0) = (1, false) := by
    show gepLoop (.structTy [f0, f1]) (allocSize f0) 0 = (1, false)
    rw [gepLoop_two_field_step f0 f1 (allocSize f0) 0 h0 hs0 (Nat.le_refl _) (by omega)]
    rw [Nat.sub_self]
    exact gepLoop_zero f1 1
  refine ⟨hres, ?_⟩
  show (do
    let srcIndex ← getValueNodeFor nf src
    let dstIndex ← lookupValue nf (.instK id)
    let fieldNum := (getGEPInstFieldNum (.structTy [f0, f1]) (allocSize f0)).1
    some (nf, [(⟨.store, dstIndex, srcIndex, fieldNum⟩ : AndersConstraint)])) =
    some (nf, [⟨.store, d, s, 1⟩])
  rw [hsrc, hd]
  show some (nf, [(⟨.store, d, s,
      (getGEPInstFieldNum (.structTy [f0, f1]) (allocSize f0)).1⟩ : AndersConstraint)]) = _
  rw [hres]

/-- Witness for C6: GEP to field 1 of { i32, i32 } — byte offset 4,
flattened field index 1: the emitted STORE is tagged 1, not 4. -/
theorem gep_field1_flattened_index_witness :
    allocSize (Ty.intTy 32) = 4 ∧
    (Ty.intTy 32).isAggregate = false ∧ 0 < allocSize (Ty.intTy 32) ∧
    lookupValue nfGep (.instK 1) = some 9 ∧ getValueNodeFor nfGep srcGep = some 8 ∧
    (getGEPInstFieldNum (.structTy [.intTy 32, .intTy 32]) (allocSize (.intTy 32)) = (1, false) ∧
     collectConstraintsForInstruction emptyModule none extLibNone dummyFunc nfGep
       (.gepI 1 (.ptrTy (.structTy [.intTy 32, .intTy 32])) srcGep
         (.structTy [.intTy 32, .intTy 32]) (allocSize (.intTy 32))) =
       some (nfGep, [⟨.store, 9, 8, 1⟩])) :=
  ⟨rfl, rfl, by decide, rfl, rfl,
   gep_field1_flattened_index emptyModule none extLibNone dummyFunc nfGep 1
     (.structTy [.intTy 32, .intTy 32]) srcGep (.intTy 32) (.intTy 32) 9 8 rfl rfl
     (by decide) (by decide) rfl rfl⟩

/-- C9: a pointer-arithmetic instruction whose byte offset lands strictly
inside the non-aggregate field 1 of a two-field struct (union-style
reinterpretation): the offset resolver emits the diagnostic (second
component true), stops descending, and returns the best field index
accumulated so far (the flattened index 1 of the containing field), and
the translator still emits the offset-tagged STORE at that partially
resolved index instead of aborting. -/
theorem gep_inside_field_diagnostic (m : Module) (tli : Option Tli) (extLib : ExtLib)
    (f : Func) (nf : NodeFactory) (id : Nat) (pointee : Ty) (src : Operand)
    (f0 f1 : Ty) (off d s : Nat)
    (h0 : f0.isAggregate = false) (h1 : f1.isAggregate = false)
    (hlo : allocSize f0 < off) (hhi : off < allocSize f0 + allocSize f1)
    (hd : lookupValue nf (.instK id) = some d)
    (hsrc : getValueNodeFor nf src = some s) :
    getGEPInstFieldNum (.structTy [f0, f1]) off = (1, true) ∧
    collectConstraintsForInstruction m tli extLib f nf
      (.gepI id (.ptrTy pointee) src (.structTy [f0, f1]) off) =
      some (nf, [⟨.store, d, s, 1⟩]) := by
  have hres : getGEPInstFieldNum (.structTy [f0, f1]) off = (1, true) := by
    show gepLoop (.structTy [f0, f1]) off 0 = (1, true)
    rw [gepLoop_two_field_step f0 f1 off 0 h0 (by omega) (by omega) hhi]
    exact gepLoop_scalar_inside f1 (off - allocSize f0) 1 h1 (by omega) (by omega)
  refine ⟨hres, ?_⟩
  show (do
    let srcIndex ← getValueNodeFor nf src
    let dstIndex ← lookupValue nf (.instK id)
    let fieldNum := (getGEPInstFieldNum (.structTy [f0, f1]) off).1
    some (nf, [(⟨.store, dstIndex, srcIndex, fieldNum⟩ : AndersConstraint)])) =
    some (nf, [⟨.store, d, s, 1⟩])
  rw [hsrc, hd]
  show some (nf, [(⟨.store, d, s,
      (getGEPInstFieldNum (.structTy [f0, f1]) off).1⟩ : AndersConstraint)]) = _
  rw [hres]

/-- Witness for C9: GEP with byte offset 5 into { i32, i32 } lands
strictly inside field 1 (bytes 4 to 8): the resolver reports the
diagnostic and returns field index 1, and the STORE tagged 1 is still
emitted. -/
theorem gep_inside_field_diagnostic_witness :
    allocSize (Ty.intTy 32) < 5 ∧ 5 < allocSize (Ty.intTy 32) + allocSize (Ty.intTy 32) ∧
    (getGEPInstFieldNum (.structTy [.intTy 32, .intTy 32]) 5 = (1, true) ∧
     collectConstraintsForInstruction emptyModule none extLibNone dummyFunc nfGep
       (.gepI 1 (.ptrTy (.structTy [.intTy 32, .intTy 32])) srcGep
         (.structTy [.intTy 32, .intTy 32]) 5) =
       some (nfGep, [⟨.store, 9, 8, 1⟩])) :=
  ⟨by decide, by decide,
   gep_inside_field_diagnostic emptyModule none extLibNone dummyFunc nfGep 1
     (.structTy [.intTy 32, .intTy 32]) srcGep (.intTy 32) (.intTy 32) 5 9 8 rfl rfl
     (by decide) (by decide) rfl rfl⟩

theorem createObjectNodeAnonRange_spec (k : Nat) (nf : NodeFactory) :
    createObjectNodeAnonRange nf k =
      ⟨nf.nodeCount + k, nf.valueMap, nf.objectMap, nf.returnMap, nf.varargMap⟩ := by
  induction k generalizing nf with
  | zero =>
    show nf = _
    cases nf
    rfl
  | succ k ih =>
    show createObjectNodeAnonRange (createObjectNodeAnon nf).1 k = _
    rw [ih]
    show (⟨nf.nodeCount + 1 + k, nf.valueMap, nf.objectMap, nf.returnMap, nf.varargMap⟩ :
      NodeFactory) = _
    have harith : nf.nodeCount + 1 + k = nf.nodeCount + (k + 1) := by omega
    rw [harith]

/-- C8: a global whose base element type (after stripping array wrapping)
is a non-empty struct with N = expandedSizeList fs flattened fields: the
allocation step creates exactly one value node (index nodeCount) and
exactly N object nodes at the consecutive indices nodeCount + 1 up to
nodeCount + N (the node count grows by exactly 1 + N and only the two
ownership entries are added), and emits exactly one ADDR_OF from the value
node to the first object node — node nodeCount + 1, which is
getOffsetObjectNode of the base at flattened field 0. -/
theorem struct_global_allocation (nf : NodeFactory) (g : GlobalVar) (fs : List Ty)
    (hbase : stripArray g.ty = .structTy fs)
    (hne : structIsEmpty fs = false)
    (hv : lookupValue nf (.globalK g.gid) = none)
    (ho : lookupObject nf (.globalK g.gid) = none) :
    processGlobalAlloc nf g =
      (⟨nf.nodeCount + 1 + expandedSizeList fs,
        (.globalK g.gid, nf.nodeCount) :: nf.valueMap,
        (.globalK g.gid, nf.nodeCount + 1) :: nf.objectMap,
        nf.returnMap, nf.varargMap⟩,
       [⟨.addr_of, nf.nodeCount, nf.nodeCount + 1, 0⟩]) ∧
    getOffsetObjectNode (nf.nodeCount + 1) 0 = nf.nodeCount + 1 := by
  have hN : expandedSizeList fs ≠ 0 := by
    intro hzero
    rw [structIsEmpty, hzero] at hne
    simp at hne
  refine ⟨?_, rfl⟩
  have ho2 : lookupKey (.globalK g.gid) nf.objectMap = none := ho
  unfold processGlobalAlloc
  rw [hbase]
  show processStruct nf (.globalK g.gid) fs = _
  unfold processStruct createValueNode createObjectNodeFor
  rw [hne]
  simp only [Bool.false_eq_true, if_false, hv, lookupObject, ho2]
  rw [createObjectNodeAnonRange_spec]
  show ((⟨nf.nodeCount + 1 + 1 + (expandedSizeList fs - 1),
      (ValueKey.globalK g.gid, nf.nodeCount) :: nf.valueMap,
      (ValueKey.globalK g.gid, nf.nodeCount + 1) :: nf.objectMap,
      nf.returnMap, nf.varargMap⟩ : NodeFactory),
     [(⟨.addr_of, nf.nodeCount, nf.nodeCount + 1, 0⟩ : AndersConstraint)]) = _
  have harith : nf.nodeCount + 1 + 1 + (expandedSizeList fs - 1) =
      nf.nodeCount + 1 + expandedSizeList fs := by omega
  rw [harith]

/-- Witness for C8: the global [2 x { i32*, i32 }] — base type a struct
with 2 flattened fields — allocates one value node (4) and two
consecutive object nodes (5, 6), and emits the single ADDR_OF(4, 5). -/
theorem struct_global_allocation_witness :
    stripArray gStruct.ty = .structTy [pT32, .intTy 32] ∧
    structIsEmpty [pT32, .intTy 32] = false ∧
    expandedSizeList [pT32, .intTy 32] = 2 ∧
    (processGlobalAlloc initialFactory gStruct =
      (⟨initialFactory.nodeCount + 1 + expandedSizeList [pT32, .intTy 32],
        [(.globalK 7, initialFactory.nodeCount)],
        [(.globalK 7, initialFactory.nodeCount + 1)],
        [], []⟩,
       [⟨.addr_of, initialFactory.nodeCount, initialFactory.nodeCount + 1, 0⟩]) ∧
     getOffsetObjectNode (initialFactory.nodeCount + 1) 0 = initialFactory.nodeCount + 1) :=
  ⟨rfl, rfl, rfl,
   struct_global_allocation initialFactory gStruct [pT32, .intTy 32] rfl rfl rfl rfl⟩

/-- C5: the candidate loop of an indirect call site binds arguments
against exactly the functions kept by the claimed filter: those with a
value node (under the stated allocation invariant, exactly the
address-taken ones) that are variadic or whose fixed-formal count equals
the actual-argument count; every other function — not address-taken, or
arity-mismatched and non-variadic — is skipped. -/
theorem indirect_call_candidates (nf : NodeFactory) (cs : CallSite) (fs : List Func)
    (h : ∀ f ∈ fs, (lookupValue nf (.funcK f.fid)).isSome = true ↔ f.addressTaken = true) :
    indirectArgLoop nf cs fs =
      boundCandidatesSpec nf cs
        (fs.filter (fun f => f.addressTaken && (f.isVarArg || f.argTys.length == cs.args.length))) := by
  induction fs with
  | nil => rfl
  | cons f rest ih =>
    have hf := h f (by simp)
    have hrest := ih (fun g hg => h g (by simp [hg]))
    rw [indirectArgLoop, List.filter_cons, hrest]
    cases hl : lookupValue nf (.funcK f.fid) with
    | none =>
      have hat : f.addressTaken = false := by
        rw [hl] at hf
        simpa using hf
      simp [hat]
    | some v =>
      have hat : f.addressTaken = true := hf.mp (by rw [hl]; rfl)
      cases hv : f.isVarArg with
      | true => simp [hat, hv, boundCandidatesSpec]
      | false =>
        cases hlen : f.argTys.length == cs.args.length with
        | true =>
          have heq : f.argTys.length = cs.args.length := by
            simpa using hlen
          simp [hat, hv, hlen, heq, boundCandidatesSpec]
        | false =>
          simp only [hat, hv, hlen]
          simp
          intro heq
          rw [heq] at hlen
          simp at hlen

/-- Witness for C5: an indirect call with 2 actuals against four
functions — address-taken of arity 2 (kept), address-taken variadic
(kept), non-address-taken of arity 2 (skipped), address-taken of arity 3
(skipped). -/
theorem indirect_call_candidates_witness :
    fsInd.filter
        (fun f => f.addressTaken && (f.isVarArg || f.argTys.length == csInd.args.length)) =
      [fArity2, fVar] ∧
    indirectArgLoop nfInd csInd fsInd =
      boundCandidatesSpec nfInd csInd
        (fsInd.filter
          (fun f => f.addressTaken && (f.isVarArg || f.argTys.length == csInd.args.length))) :=
  ⟨rfl, indirect_call_candidates nfInd csInd fsInd (by decide)⟩

/-- Counterexample to C4 as stated: in the run over mOrder, the
global-initializer constraint (ADDR_OF from the object node of the global
to the Null Object, emitted by the initializer loop) appears at an earlier
position of the output than the function-body constraint (the ADDR_OF of
the alloca), so it is not the case that every global-initializer
constraint appears after every function-body constraint. -/
theorem global_init_not_after_bodies :
    ¬ (∀ ci ∈ globalInitConstraintsOf mOrder,
        ∀ cb ∈ bodyConstraintsOf none extLibNone mOrder,
          (outputConstraintsOf none extLibNone mOrder).indexOf cb <
            (outputConstraintsOf none extLibNone mOrder).indexOf ci) := by
  decide

/-- C4 amended: the code emits the global-initializer constraints during
the globals phase, before any function body is processed: whenever
collection succeeds, the output is exactly the seed constraints, then the
global-allocation constraints, then the address-taken-function
constraints, then the global-initializer constraints, and only then the
function-body constraints. -/
theorem global_init_before_bodies (tli : Option Tli) (extLib : ExtLib) (m : Module)
    (h : (collectConstraints tli extLib m).isSome = true) :
    ∃ nfOut csInit nfB csBody,
      globalsInitPass (funcAllocResult m).1 m.globals = some csInit ∧
      functionsPass m tli extLib (funcAllocResult m).1 m.funcs = some (nfB, csBody) ∧
      collectConstraints tli extLib m =
        some (nfOut,
          seedConstraints ++ (globalAllocResult m).2 ++ (funcAllocResult m).2 ++
            csInit ++ csBody) := by
  have hcc : collectConstraints tli extLib m =
      ((globalsInitPass (funcAllocResult m).1 m.globals).map
        (fun cs3 =>
          ((funcAllocResult m).1, (globalAllocResult m).2 ++ (funcAllocResult m).2 ++ cs3))).bind
        (fun r1 => (functionsPass m tli extLib r1.1 m.funcs).map
          (fun r2 => (r2.1, seedConstraints ++ r1.2 ++ r2.2))) := rfl
  cases hg : globalsInitPass (funcAllocResult m).1 m.globals with
  | none =>
    exfalso
    rw [hcc, hg] at h
    simp at h
  | some csInit =>
    cases hb : functionsPass m tli extLib (funcAllocResult m).1 m.funcs with
    | none =>
      exfalso
      rw [hcc, hg] at h
      replace h : ((functionsPass m tli extLib (funcAllocResult m).1 m.funcs).map
          (fun r2 => (r2.1, seedConstraints ++
            ((globalAllocResult m).2 ++ (funcAllocResult m).2 ++ csInit) ++ r2.2))).isSome =
          true := h
      rw [hb] at h
      simp at h
    | some r2 =>
      refine ⟨r2.1, csInit, r2.1, r2.2, rfl, rfl, ?_⟩
      rw [hcc, hg]
      show ((functionsPass m tli extLib (funcAllocResult m).1 m.funcs).map
        (fun r2 => (r2.1, seedConstraints ++
          ((globalAllocResult m).2 ++ (funcAllocResult m).2 ++ csInit) ++ r2.2))) = _
      rw [hb]
      show some (r2.1, seedConstraints ++
        ((globalAllocResult m).2 ++ (funcAllocResult m).2 ++ csInit) ++ r2.2) = _
      simp [List.append_assoc]

/-- Witness for C4 amended: at the module mOrder the run succeeds and the
output splits as seeds, then global allocation, then (empty) function
allocation, then the initializer constraint, then the body constraint. -/
theorem global_init_before_bodies_witness :
    ∃ nfOut csInit nfB csBody,
      globalsInitPass (funcAllocResult mOrder).1 mOrder.globals = some csInit ∧
      functionsPass mOrder none extLibNone (funcAllocResult mOrder).1 mOrder.funcs =
        some (nfB, csBody) ∧
      collectConstraints none extLibNone mOrder =
        some (nfOut,
          seedConstraints ++ (globalAllocResult mOrder).2 ++ (funcAllocResult mOrder).2 ++
            csInit ++ csBody) :=
  global_init_before_bodies none extLibNone mOrder rfl

end AndersenPTA
